import Mathlib

/-
Verification of the RPC-catalog synchronization scripts
(`src/update.ts` and its earlier variant `src/unnamed/part_000`).

The two scripts share an identical extraction-and-filter stage:
they fetch a JavaScript module text, strip its module syntax with
regular expressions, evaluate the remainder to obtain the `extraRpcs`
mapping, filter each chain's candidate RPC entries, and (in
`update.ts` only) probe each eligible URL for liveness before writing
the catalog `rpc_providers.json` and bumping the `providers_version`
counter.

Shallow embedding conventions:
* TypeScript values follow the declared interfaces: a candidate
  (`RpcConfig.rpcs` element) is either a bare URL string or an object
  whose `url` key may be present or absent (the code guards with
  `"url" in rpc`) and whose `tracking` key may be present or absent.
* A chain's value is modelled by `RpcConfig` with `rpcs :
  Option (List Rpc)`; `Option.none` covers the `!rpcs ||
  !Array.isArray(rpcs)` guard (field absent or not an array).
* JavaScript string truthiness (`url && ...`) is the test `url ≠ ""`;
  `String.prototype.startsWith` is a character-list prefix test.
* Network effects (document fetch, probe responses) are modelled by
  explicit outcome values handed to the pure functions.
-/

/-- Tracking attribute values admitted by the `RpcConfig` interface of
both scripts (`tracking?: "none" | "yes" | "limited" | "unspecified"`). -/
inductive Tracking where
  | none
  | yes
  | limited
  | unspecified
deriving DecidableEq, Repr

/-- One element of a chain's `rpcs` array: either a bare URL string or
an object.  The object's `url` key may be absent (the code tests
`"url" in rpc`) and its `tracking` key may be absent. -/
inductive Rpc where
  | str (s : String)
  | obj (url : Option String) (tracking : Option Tracking)
deriving DecidableEq, Repr

/-- Value attached to one chain id in the `extraRpcs` mapping.
`rpcs = Option.none` models the cases skipped by
`if (!rpcs || !Array.isArray(rpcs)) continue;`. -/
structure RpcConfig where
  rpcs : Option (List Rpc)
deriving DecidableEq, Repr

/-- The `extraRpcs` mapping, as the entry list traversed by
`Object.entries(extraRpcs)`. -/
abbrev ExtraRpcs := List (String × RpcConfig)

/-- Embedding of JavaScript `s.startsWith(p)` as a character-list
prefix test (the scripts only apply it to plain ASCII literals). -/
def jsStartsWith (s p : String) : Bool :=
  p.data.isPrefixOf s.data

/-- Per-candidate URL selection of `update.ts` lines 145-161 (identical
in `part_000` lines 72-88): a bare string is used directly; an object
must have a `url` key; for chain id `"1"` an object additionally needs
`tracking === "none"`.  Returns `Option.none` where the script leaves
its local `url` variable `null`. -/
def pickUrl (chainId : String) (rpc : Rpc) : Option String :=
  match rpc with
  | Rpc.str s => some s
  | Rpc.obj u t =>
    match u with
    | Option.none => Option.none
    | some uv =>
      if chainId = "1" then
        if t = some Tracking.none then some uv else Option.none
      else
        some uv

/-- Guard of `update.ts` line 164, `if (url && url.startsWith("https"))`:
string truthiness (non-empty) and the `https` prefix test. -/
def keepUrl (url : String) : Bool :=
  if url = "" then false else jsStartsWith url "https"

/-- Inner loop of `update.ts` lines 142-167: collect, in order, the
selected URLs of a chain's candidates that pass `keepUrl`. -/
def filterRpcs (chainId : String) (rpcs : List Rpc) : List String :=
  rpcs.filterMap (fun rpc =>
    match pickUrl chainId rpc with
    | Option.none => Option.none
    | some url => if keepUrl url then some url else Option.none)

/-- Outer loop of `update.ts` lines 136-171: for each chain entry,
skip it when `rpcs` is unusable, otherwise record the filtered URL
list (possibly empty) under the chain id. -/
def processDoc (doc : ExtraRpcs) : List (String × List String) :=
  doc.filterMap (fun entry =>
    match entry.2.rpcs with
    | Option.none => Option.none
    | some rpcs => some (entry.1, filterRpcs entry.1 rpcs))

/-- Value found in the `result` field of a decoded probe response
body: a string, or some non-string value (only its truthiness matters
to the script). -/
inductive JsonResult where
  | str (s : String)
  | nonString (truthy : Bool)
deriving DecidableEq, Repr

/-- Decoded probe response body; `result = Option.none` models
`data.result === undefined`. -/
structure JsonBody where
  result : Option JsonResult
deriving DecidableEq, Repr

/-- Outcome of one probe request, as observed by `checkRpcUrl`:
`exn` covers a transport error or the timeout abort (anything that
makes `fetch` or `response.json()` reject is separately covered by the
`body = Option.none` case); otherwise a response with its `ok` flag
and, when JSON decoding succeeds, the decoded body. -/
inductive ProbeOutcome where
  | exn
  | response (ok : Bool) (body : Option JsonBody)
deriving DecidableEq, Repr

/-- Embedding of `checkRpcUrl` (`update.ts` lines 26-62): any thrown
error yields `false`; a non-`ok` status yields `false`; otherwise the
body must hold a truthy string `result` starting with `0x`. -/
def checkRpcUrl (o : ProbeOutcome) : Bool :=
  match o with
  | ProbeOutcome.exn => false
  | ProbeOutcome.response false _ => false
  | ProbeOutcome.response true Option.none => false
  | ProbeOutcome.response true (some data) =>
    match data.result with
    | some (JsonResult.str s) => if s = "" then false else jsStartsWith s "0x"
    | some (JsonResult.nonString _) => false
    | Option.none => false

/-- Chunking loop of `checkRpcUrls` (`update.ts` lines 69-74), which
slices the URL list into batches of `c`.  Structural recursion on a
fuel argument (instantiated with the list length) mirrors the index
loop for every positive `c`; the scripts call it with `c = 30` and
default `10`. -/
def chunkListAux (c : Nat) : Nat → List String → List (List String)
  | 0, _ => []
  | _, [] => []
  | fuel + 1, x :: xs => (x :: xs.take (c - 1)) :: chunkListAux c fuel (xs.drop (c - 1))

/-- Batches of size `c` covering `xs` in order. -/
def chunkList (c : Nat) (xs : List String) : List (List String) :=
  chunkListAux c xs.length xs

/-- Embedding of `checkRpcUrls` (`update.ts` lines 67-94): probe each
batch (its per-URL verdict given by the oracle `isValid`, with
`Promise.all` preserving the batch order) and append the valid URLs of
each batch in order. -/
def checkRpcUrls (isValid : String → Bool) (urls : List String) (c : Nat) : List String :=
  (chunkList c urls).foldl (fun acc chunk => acc ++ chunk.filter isValid) []

/-- Validation loop of `update.ts` lines 177-198: a chain with no
eligible URLs passes through as the empty list without probing;
otherwise its URLs go through `checkRpcUrls` with width 30. -/
def validateAll (isValid : String → Bool) (result : List (String × List String)) :
    List (String × List String) :=
  result.map (fun p =>
    if p.2 = [] then (p.1, ([] : List String)) else (p.1, checkRpcUrls isValid p.2 30))

/-- Persisted version-counter file as read by the scripts:
`Option.none` when the file is absent (`existsSync` false);
`some Option.none` when reading or `Number(...)` parsing fails (NaN);
`some (some n)` when it parses to the number `n`. -/
abbrev VersionFile := Option (Option Int)

/-- Version read of `update.ts` lines 216-226: default 0 when the file
is absent or unreadable; `versionData || 0` maps NaN (and 0 itself)
to 0. -/
def readVersion (vf : VersionFile) : Int :=
  match vf with
  | Option.none => 0
  | some Option.none => 0
  | some (some n) => if n = 0 then 0 else n

/-- Increment of `update.ts` line 229. -/
def newVersion (vf : VersionFile) : Int :=
  readVersion vf + 1

/-- Content written back to the counter file (`update.ts` line 232,
a bare `${newVersion}` template string). -/
def versionFileWritten (vf : VersionFile) : String :=
  toString (newVersion vf)

/-- Statement-level model of the fetched JavaScript module text, at
the granularity the regex transformations of `update.ts` lines 111-126
(identical in `part_000` lines 38-53) operate on:
`importFrom` is a line matched by `^import\s+.*?from\s+.*?;?\s*$`;
`exportDefault` a line matched by `^export\s+default\s+.*?;?\s*$`;
`exportStmt s` a statement prefixed by `export\s+` (the prefix is
deleted, leaving `s`); `constMergeDeepAll` the statement matched by
`const\s+allExtraRpcs\s*=\s*mergeDeep\(...\)`; `assignExtraRpcs d` a
declaration binding `extraRpcs` to the data literal `d`; `effect e`
any other executable statement, whose evaluation has the observable
effect `e`. -/
inductive Stmt where
  | importFrom (line : String)
  | exportDefault (line : String)
  | exportStmt (inner : Stmt)
  | constMergeDeepAll (args : String)
  | assignExtraRpcs (d : ExtraRpcs)
  | effect (e : String)
deriving DecidableEq

/-- First regex pass: delete `import ... from ...` lines. -/
def stripImports (doc : List Stmt) : List Stmt :=
  doc.filter (fun s => match s with
    | Stmt.importFrom _ => false
    | _ => true)

/-- Second regex pass: delete `export default ...` lines. -/
def stripExportDefault (doc : List Stmt) : List Stmt :=
  doc.filter (fun s => match s with
    | Stmt.exportDefault _ => false
    | _ => true)

/-- Third regex pass: delete the leading `export ` keyword, leaving
the wrapped statement in place. -/
def stripExportKeyword (doc : List Stmt) : List Stmt :=
  doc.map (fun s => match s with
    | Stmt.exportStmt inner => inner
    | s => s)

/-- Fourth regex pass: delete the `const allExtraRpcs = mergeDeep(...)`
statement. -/
def stripMergeDeep (doc : List Stmt) : List Stmt :=
  doc.filter (fun s => match s with
    | Stmt.constMergeDeepAll _ => false
    | _ => true)

/-- The four regex passes of `update.ts` lines 113-123, in program
order. -/
def transformContent (doc : List Stmt) : List Stmt :=
  stripMergeDeep (stripExportKeyword (stripExportDefault (stripImports doc)))

/-- State accumulated while `new Function(content)()` evaluates the
transformed text: the observable effects of the executed statements,
in order, and the current binding of `extraRpcs` (returned by the
appended `return extraRpcs;`). -/
structure ExecState where
  effects : List String
  extraRpcs : Option ExtraRpcs
deriving DecidableEq

/-- Evaluation of one statement.  A surviving `importFrom`,
`exportDefault`, `exportStmt` or `constMergeDeepAll` statement would
in reality throw inside the constructed function; the transformation
theorems show they never reach evaluation, so their branches are
inert here. -/
def execStmt (st : ExecState) (s : Stmt) : ExecState :=
  match s with
  | Stmt.assignExtraRpcs d => { st with extraRpcs := some d }
  | Stmt.effect e => { st with effects := st.effects ++ [e] }
  | _ => st

/-- Embedding of `update.ts` lines 111-129: transform the text, then
evaluate it with the `Function` constructor. -/
def runDocument (doc : List Stmt) : ExecState :=
  (transformContent doc).foldl execStmt ⟨[], Option.none⟩

/-- Value of the `extraRpcs` binding after evaluation; `Option.none`
means the evaluation throws a reference error at `return extraRpcs;`,
which aborts the run. -/
def extractCatalog (doc : List Stmt) : Option ExtraRpcs :=
  (runDocument doc).extraRpcs

/-- Outcome of the upstream document fetch (`update.ts` lines 103-109):
a transport error, or a response carrying its `ok` flag and the body
text (already in statement form). -/
inductive FetchResult where
  | transportError
  | response (ok : Bool) (docText : List Stmt)

/-- Externally visible outcome of one run: the process exit code, the
content written to `rpc_providers.json` (`Option.none` when the file
is not touched) and the content written to `providers_version`
(`Option.none` when not touched). -/
structure RunOutput where
  exitCode : Nat
  catalogWritten : Option (List (String × List String))
  versionWritten : Option String
deriving DecidableEq

/-- Embedding of `main` in `update.ts`: a fetch failure or a document
whose evaluation leaves `extraRpcs` unbound throws into the outer
`catch`, which exits with status 1 before any file is written; a
successful run writes the validated catalog and the bumped version and
exits 0. -/
def runMain (fr : FetchResult) (isValid : String → Bool) (vf : VersionFile) : RunOutput :=
  match fr with
  | FetchResult.transportError => ⟨1, Option.none, Option.none⟩
  | FetchResult.response false _ => ⟨1, Option.none, Option.none⟩
  | FetchResult.response true docText =>
    match extractCatalog docText with
    | Option.none => ⟨1, Option.none, Option.none⟩
    | some extra =>
      ⟨0, some (validateAll isValid (processDoc extra)), some (versionFileWritten vf)⟩

namespace PartZero

/-- Per-candidate URL selection of `src/unnamed/part_000` lines 72-88
(textually identical to `update.ts` lines 145-161). -/
def pickUrl (chainId : String) (rpc : Rpc) : Option String :=
  match rpc with
  | Rpc.str s => some s
  | Rpc.obj u t =>
    match u with
    | Option.none => Option.none
    | some uv =>
      if chainId = "1" then
        if t = some Tracking.none then some uv else Option.none
      else
        some uv

/-- Guard of `part_000` line 91, `if (url && url.startsWith("https"))`. -/
def keepUrl (url : String) : Bool :=
  if url = "" then false else jsStartsWith url "https"

/-- Inner loop of `part_000` lines 69-94. -/
def filterRpcs (chainId : String) (rpcs : List Rpc) : List String :=
  rpcs.filterMap (fun rpc =>
    match PartZero.pickUrl chainId rpc with
    | Option.none => Option.none
    | some url => if PartZero.keepUrl url then some url else Option.none)

/-- Outer loop of `part_000` lines 63-98. -/
def processDoc (doc : ExtraRpcs) : List (String × List String) :=
  doc.filterMap (fun entry =>
    match entry.2.rpcs with
    | Option.none => Option.none
    | some rpcs => some (entry.1, PartZero.filterRpcs entry.1 rpcs))

/-- Embedding of `main` in `part_000`: identical to `update.ts` except
that the processed mapping is written directly, with no liveness
validation stage. -/
def runMain (fr : FetchResult) (vf : VersionFile) : RunOutput :=
  match fr with
  | FetchResult.transportError => ⟨1, Option.none, Option.none⟩
  | FetchResult.response false _ => ⟨1, Option.none, Option.none⟩
  | FetchResult.response true docText =>
    match extractCatalog docText with
    | Option.none => ⟨1, Option.none, Option.none⟩
    | some extra =>
      ⟨0, some (PartZero.processDoc extra), some (versionFileWritten vf)⟩

end PartZero

/-- Dynamic JavaScript value.  The `ExtraRpcs` cast at `update.ts`
line 129 is a compile-time assertion only, so at runtime a network
value or a candidate's `url` field can hold any value produced by the
evaluated document.  This model expresses the untyped error paths that
the typed `Rpc`/`RpcConfig` shapes cannot: a nullish network value
(property access throws) and a truthy non-string `url` (method call
throws). -/
inductive JsVal where
  | vUndef
  | vNull
  | vBool (b : Bool)
  | vNum (n : Int)
  | vStr (s : String)
  | vArr (elems : List JsVal)
  | vObj (fields : List (String × JsVal))

/-- JavaScript truthiness of a dynamic value (`undefined`, `null`,
`false`, `0` and `""` are falsy; objects and arrays are truthy). -/
def jsTruthy (v : JsVal) : Bool :=
  match v with
  | JsVal.vUndef => false
  | JsVal.vNull => false
  | JsVal.vBool b => b
  | JsVal.vNum n => if n = 0 then false else true
  | JsVal.vStr s => if s = "" then false else true
  | JsVal.vArr _ => true
  | JsVal.vObj _ => true

/-- Field lookup in an object's field list; `vUndef` when absent. -/
def findField (fields : List (String × JsVal)) (k : String) : JsVal :=
  match fields with
  | [] => JsVal.vUndef
  | (k1, v1) :: rest => if k1 = k then v1 else findField rest k

/-- The `in` test on an object's field list (a key bound to
`undefined` still counts, as in JavaScript). -/
def hasField (fields : List (String × JsVal)) (k : String) : Bool :=
  match fields with
  | [] => false
  | (k1, _) :: rest => if k1 = k then true else hasField rest k

/-- Property access `v.k`: throws a TypeError when `v` is null or
undefined; yields the field (or undefined) on an object; yields
undefined on primitives (which are boxed) and on arrays (which have no
such named property). -/
def jsGetProp (v : JsVal) (k : String) : Except Unit JsVal :=
  match v with
  | JsVal.vUndef => Except.error ()
  | JsVal.vNull => Except.error ()
  | JsVal.vObj fields => Except.ok (findField fields k)
  | _ => Except.ok JsVal.vUndef

/-- Strict equality `v === "none"` of `update.ts` line 154: true only
for the string value `"none"`. -/
def isStrNone (v : JsVal) : Bool :=
  match v with
  | JsVal.vStr s => if s = "none" then true else false
  | _ => false

/-- Value held by the local `url` variable after the branch chain of
`update.ts` lines 145-161 on a dynamic candidate: a string candidate
is kept; an object candidate (`typeof rpc === "object" && rpc !==
null`, which also admits arrays, though `"url" in` an array is false)
is consulted for its `url` field, additionally gated on chain `"1"` by
`tracking === "none"`; every other candidate leaves `url` at its
initial null.  No step in this chain can throw. -/
def jsUrlVar (chainId : String) (rpc : JsVal) : JsVal :=
  match rpc with
  | JsVal.vStr s => JsVal.vStr s
  | JsVal.vObj fields =>
    if hasField fields "url" then
      if chainId = "1" then
        if isStrNone (findField fields "tracking") then findField fields "url"
        else JsVal.vNull
      else findField fields "url"
    else JsVal.vNull
  | _ => JsVal.vNull

/-- Guard of `update.ts` line 164, `url && url.startsWith("https")`,
on a dynamic `url` value: a falsy `url` short-circuits to no push; a
truthy string is tested for the prefix; a truthy non-string has no
`startsWith` method, so evaluating the guard throws a TypeError. -/
def jsPushGuard (url : JsVal) : Except Unit (Option String) :=
  if jsTruthy url then
    match url with
    | JsVal.vStr s => Except.ok (if jsStartsWith s "https" then some s else none)
    | _ => Except.error ()
  else Except.ok none

/-- Inner loop of `update.ts` lines 144-167 on dynamic candidates; a
TypeError thrown by the push guard propagates out of the loop. -/
def jsFilterRpcs (chainId : String) (rpcs : List JsVal) : Except Unit (List String) :=
  match rpcs with
  | [] => Except.ok []
  | rpc :: rest =>
    match jsPushGuard (jsUrlVar chainId rpc) with
    | Except.error e => Except.error e
    | Except.ok o =>
      match jsFilterRpcs chainId rest with
      | Except.error e => Except.error e
      | Except.ok urls =>
        Except.ok (match o with
          | some u => u :: urls
          | none => urls)

/-- Outer loop of `update.ts` lines 136-171 on dynamic network values:
`config.rpcs` (line 137) throws on a nullish network value; a falsy or
non-array `rpcs` skips the network (line 138); otherwise the
candidates are filtered, any TypeError propagating. -/
def jsProcessDoc (doc : List (String × JsVal)) :
    Except Unit (List (String × List String)) :=
  match doc with
  | [] => Except.ok []
  | (cid, config) :: rest =>
    match jsGetProp config "rpcs" with
    | Except.error e => Except.error e
    | Except.ok rpcsVal =>
      match rpcsVal with
      | JsVal.vArr elems =>
        match jsFilterRpcs cid elems with
        | Except.error e => Except.error e
        | Except.ok urls =>
          match jsProcessDoc rest with
          | Except.error e => Except.error e
          | Except.ok out => Except.ok ((cid, urls) :: out)
      | _ => jsProcessDoc rest

/-- Processing-through-write stage of `main` in `update.ts` on a
dynamic document (after a successful fetch and extraction): a
TypeError thrown during processing lands in the outer catch, which
exits with status 1 before any file is written; otherwise the
validated catalog and bumped version are written and the run
exits 0. -/
def jsRunProcess (doc : List (String × JsVal)) (isValid : String → Bool)
    (vf : VersionFile) : RunOutput :=
  match jsProcessDoc doc with
  | Except.error _ => RunOutput.mk 1 Option.none Option.none
  | Except.ok result =>
    RunOutput.mk 0 (some (validateAll isValid result)) (some (versionFileWritten vf))

/-- Network values that the guard at `update.ts` line 138 skips
without error: every non-nullish value whose `rpcs` property is falsy
or not an array.  Nullish values are excluded: they throw at
line 137. -/
def skippedNetworkValue (v : JsVal) : Bool :=
  match v with
  | JsVal.vUndef => false
  | JsVal.vNull => false
  | JsVal.vObj fields =>
    (match findField fields "rpcs" with
      | JsVal.vArr _ => false
      | _ => true)
  | _ => true

/-- Candidates that `update.ts` line 164 silently drops: those whose
computed `url` variable is falsy - non-string non-object candidates,
objects without a `url` key, chain-`"1"` objects without tracking
`"none"`, and objects whose `url` value is falsy.  A truthy non-string
`url` is excluded: it throws at line 164. -/
def droppedCandidate (chainId : String) (rpc : JsVal) : Bool :=
  !(jsTruthy (jsUrlVar chainId rpc))

/-- Relation between an output URL and a candidate entry: the URL is
the bare string itself, or the `url` field of an object entry. -/
def isCandidateUrl (url : String) (rpc : Rpc) : Prop :=
  rpc = Rpc.str url ∨ ∃ t, rpc = Rpc.obj (some url) t

/-- URLs declared by a candidate list, in order: the bare strings and
the `url` fields of object entries (objects without a `url` key
contribute nothing). -/
def specCandidateUrls (rpcs : List Rpc) : List String :=
  rpcs.filterMap (fun rpc => match rpc with
    | Rpc.str s => some s
    | Rpc.obj u _ => u)

theorem chunkListAux_flatten (c : Nat) :
    ∀ (fuel : Nat) (xs : List String), xs.length ≤ fuel →
      (chunkListAux c fuel xs).flatten = xs := by
  intro fuel
  induction fuel with
  | zero =>
    intro xs h
    have : xs = [] := List.length_eq_zero.mp (Nat.le_zero.mp h)
    subst this
    rfl
  | succ n ih =>
    intro xs h
    cases xs with
    | nil => rfl
    | cons x xs =>
      have hlen : (xs.drop (c - 1)).length ≤ n := by
        rw [List.length_drop]
        have : xs.length ≤ n := Nat.le_of_succ_le_succ (by simpa using h)
        omega
      calc (chunkListAux c (n + 1) (x :: xs)).flatten
          = (x :: xs.take (c - 1)) ++ (chunkListAux c n (xs.drop (c - 1))).flatten := by
            simp [chunkListAux]
        _ = (x :: xs.take (c - 1)) ++ xs.drop (c - 1) := by rw [ih _ hlen]
        _ = x :: xs := by simp [List.take_append_drop]

theorem chunkList_flatten (c : Nat) (xs : List String) :
    (chunkList c xs).flatten = xs :=
  chunkListAux_flatten c xs.length xs (Nat.le_refl _)

theorem checkRpcUrls_eq_filter (v : String → Bool) (urls : List String) (c : Nat) :
    checkRpcUrls v urls c = urls.filter v := by
  have hfold : ∀ (L : List (List String)) (a : List String),
      L.foldl (fun acc chunk => acc ++ chunk.filter v) a
        = a ++ (L.map (fun l => l.filter v)).flatten := by
    intro L
    induction L with
    | nil => intro a; simp
    | cons hd tl ih => intro a; simp [ih, List.append_assoc]
  rw [checkRpcUrls, hfold]
  rw [← List.filter_flatten, chunkList_flatten]
  simp

theorem keepUrl_eq_startsWith (u : String) : keepUrl u = jsStartsWith u "https" := by
  by_cases h : u = ""
  · subst h; decide
  · simp [keepUrl, h]

theorem pickUrl_isCandidateUrl {cid url : String} {rpc : Rpc}
    (h : pickUrl cid rpc = some url) : isCandidateUrl url rpc := by
  cases rpc with
  | str s =>
    simp only [pickUrl, Option.some.injEq] at h
    exact Or.inl (by rw [h])
  | obj u t =>
    cases u with
    | none => simp [pickUrl] at h
    | some uv =>
      have huv : uv = url := by
        by_cases h1 : cid = "1"
        · by_cases h2 : t = some Tracking.none
          · simpa [pickUrl, h1, h2] using h
          · simp [pickUrl, h1, h2] at h
        · simpa [pickUrl, h1] using h
      exact Or.inr ⟨t, by rw [huv]⟩

theorem mem_filterRpcs {cid url : String} {rpcs : List Rpc}
    (h : url ∈ filterRpcs cid rpcs) :
    ∃ rpc ∈ rpcs, pickUrl cid rpc = some url := by
  rw [filterRpcs] at h
  rcases List.mem_filterMap.mp h with ⟨rpc, hmem, hf⟩
  refine ⟨rpc, hmem, ?_⟩
  rcases hp : pickUrl cid rpc with _ | v
  · rw [hp] at hf; simp at hf
  · rw [hp] at hf
    by_cases hk : keepUrl v
    · simp only [hk, if_true, Option.some.injEq] at hf
      rw [hf]
    · simp [hk] at hf

theorem mem_processDoc {doc : ExtraRpcs} {p : String × List String}
    (h : p ∈ processDoc doc) :
    ∃ cfg rpcs, (p.1, cfg) ∈ doc ∧ cfg.rpcs = some rpcs ∧ p.2 = filterRpcs p.1 rpcs := by
  rw [processDoc] at h
  rcases List.mem_filterMap.mp h with ⟨entry, hmem, hf⟩
  rcases hr : entry.2.rpcs with _ | rpcs
  · rw [hr] at hf; simp at hf
  · rw [hr] at hf
    simp only [Option.some.injEq] at hf
    refine ⟨entry.2, rpcs, ?_, hr, ?_⟩
    · rw [← hf]
      simpa using hmem
    · rw [← hf]

theorem filterRpcs_ne_one {cid : String} (h : cid ≠ "1") (rpcs : List Rpc) :
    filterRpcs cid rpcs
      = (specCandidateUrls rpcs).filter (fun u => jsStartsWith u "https") := by
  rw [filterRpcs, specCandidateUrls, List.filter_filterMap]
  apply List.filterMap_congr
  intro rpc _
  cases rpc with
  | str s => simp [pickUrl, Option.filter, keepUrl_eq_startsWith]
  | obj u t =>
    cases u with
    | none => simp [pickUrl, Option.filter]
    | some uv => simp [pickUrl, h, Option.filter, keepUrl_eq_startsWith]

theorem mem_validateAll {v : String → Bool} {res : List (String × List String)}
    {cid : String} {urls : List String}
    (h : (cid, urls) ∈ validateAll v res) :
    ∃ urls0, (cid, urls0) ∈ res ∧ ∀ u ∈ urls, u ∈ urls0 := by
  rw [validateAll] at h
  rcases List.mem_map.mp h with ⟨p, hmem, hf⟩
  by_cases hz : p.2 = []
  · simp only [hz, if_true] at hf
    rcases Prod.mk.injEq .. ▸ hf with ⟨h1, h2⟩
    refine ⟨p.2, by simpa [← h1] using hmem, ?_⟩
    intro u hu
    rw [← h2] at hu
    simp at hu
  · simp only [hz, if_false] at hf
    rcases Prod.mk.injEq .. ▸ hf with ⟨h1, h2⟩
    refine ⟨p.2, by simpa [← h1] using hmem, ?_⟩
    intro u hu
    rw [← h2, checkRpcUrls_eq_filter] at hu
    exact List.mem_of_mem_filter hu


/-- C1: the claim states that for network id "1" only structured
records with tracking exactly "none" are eligible and that no
bare-string candidate of network "1" ever reaches the eligible set or
the output catalog.  The code contradicts this (and the repository's
own requirement that chain 1 receive only tracking-"none" URLs): a
bare string takes the `typeof rpc === "string"` branch, which never
consults the chain id, so the bare-string candidate of the claim's own
scenario is eligible and reaches the output catalog for network "1". -/
theorem c1_network1_includes_bare_string :
    filterRpcs "1" [Rpc.str "https://a.example",
        Rpc.obj (some "https://b.example") (some Tracking.none),
        Rpc.obj (some "https://c.example") (some Tracking.yes)]
      = ["https://a.example", "https://b.example"] ∧
    validateAll (fun _ => true)
        (processDoc [("1", RpcConfig.mk (some [Rpc.str "https://a.example",
          Rpc.obj (some "https://b.example") (some Tracking.none),
          Rpc.obj (some "https://c.example") (some Tracking.yes)]))])
      = [("1", ["https://a.example", "https://b.example"])] := by
  constructor <;> decide

/-- C2 counterexample: the claim states that extraction never executes
logic embedded in the fetched document and has no side effects.  The
extractor evaluates the transformed document text with the `Function`
constructor, so an embedded statement that is not one of the stripped
patterns is executed: on this concrete document its observable effect
is performed during extraction. -/
theorem c2_extraction_executes_embedded_logic :
    (runDocument [Stmt.effect "mutateGlobalState",
        Stmt.assignExtraRpcs [("1", RpcConfig.mk (some []))]]).effects
      = ["mutateGlobalState"] := by decide

/-- C2 amended: the merge-helper invocation (`const allExtraRpcs =
mergeDeep(...)`) is recognized by a pattern and discarded before
evaluation, so it is never executed; but the remaining document
statements are evaluated as code, so extraction is not side-effect
free in general.  This theorem proves the discard half: no merge-call
statement survives the transformation that produces the evaluated
text. -/
theorem c2_merge_calls_discarded_before_evaluation (doc : List Stmt) :
    (transformContent doc).filter (fun s => match s with
      | Stmt.constMergeDeepAll _ => true
      | _ => false) = [] := by
  rw [transformContent, stripMergeDeep]
  induction stripExportKeyword (stripExportDefault (stripImports doc)) with
  | nil => rfl
  | cons hd tl ih => cases hd <;> simpa using ih

/-- C3: every URL in the output catalog under a network id appears
verbatim as (or as the url field of) some candidate entry in that same
network's original candidate sequence - no endpoint is invented,
reshaped, or moved across networks by extraction, filtering, or
probing. -/
theorem c3_output_traceable_to_candidates (doc : ExtraRpcs)
    (isValid : String → Bool) (cid : String) (urls : List String) (url : String)
    (h1 : (cid, urls) ∈ validateAll isValid (processDoc doc))
    (h2 : url ∈ urls) :
    ∃ cfg, (cid, cfg) ∈ doc ∧ ∃ rpcs, cfg.rpcs = some rpcs ∧
      ∃ rpc ∈ rpcs, isCandidateUrl url rpc := by
  rcases mem_validateAll h1 with ⟨urls0, hmem0, hsub⟩
  rcases mem_processDoc hmem0 with ⟨cfg, rpcs, hdoc, hrpcs, heq⟩
  refine ⟨cfg, hdoc, rpcs, hrpcs, ?_⟩
  have hurl0 : url ∈ filterRpcs cid rpcs := heq ▸ hsub url h2
  rcases mem_filterRpcs hurl0 with ⟨rpc, hmem, hpick⟩
  exact ⟨rpc, hmem, pickUrl_isCandidateUrl hpick⟩

/-- Witness for C3 at a concrete document. -/
theorem c3_witness :
    (("5", ["https://a.example"]) ∈ validateAll (fun _ => true)
        (processDoc [("5", RpcConfig.mk (some [Rpc.str "https://a.example"]))])) ∧
    ("https://a.example" ∈ ["https://a.example"]) ∧
    (∃ cfg, ("5", cfg) ∈ [("5", RpcConfig.mk (some [Rpc.str "https://a.example"]))] ∧
      ∃ rpcs, cfg.rpcs = some rpcs ∧
        ∃ rpc ∈ rpcs, isCandidateUrl "https://a.example" rpc) :=
  ⟨by decide, by decide,
    c3_output_traceable_to_candidates
      [("5", RpcConfig.mk (some [Rpc.str "https://a.example"]))]
      (fun _ => true) "5" ["https://a.example"] "https://a.example"
      (by decide) (by decide)⟩

/-- C4: for every network id other than "1" the output URL sequence is
exactly the candidate URLs that start with the literal "https"
(tracking ignored for bare strings and objects alike) and that also
passed the liveness probe, in the candidates' original order. -/
theorem c4_other_networks_scheme_then_probe (cid : String) (h : cid ≠ "1")
    (rpcs : List Rpc) (isValid : String → Bool) (c : Nat) :
    checkRpcUrls isValid (filterRpcs cid rpcs) c
      = ((specCandidateUrls rpcs).filter (fun u => jsStartsWith u "https")).filter
          isValid := by
  rw [checkRpcUrls_eq_filter, filterRpcs_ne_one h]

/-- Witness for C4 on the spec's "137" scenario. -/
theorem c4_witness :
    (("137" : String) ≠ "1") ∧
    checkRpcUrls (fun _ => true)
        (filterRpcs "137" [Rpc.str "https://x.example", Rpc.str "http://y.example"]) 30
      = ((specCandidateUrls [Rpc.str "https://x.example",
            Rpc.str "http://y.example"]).filter
          (fun u => jsStartsWith u "https")).filter (fun _ => true) :=
  ⟨by decide,
    c4_other_networks_scheme_then_probe "137" (by decide)
      [Rpc.str "https://x.example", Rpc.str "http://y.example"] (fun _ => true) 30⟩

/-- C5: a single probe succeeds if and only if the response has a
successful status and the decoded body holds a result field that is a
string beginning with "0x"; every other outcome (transport error,
timeout, non-success status, malformed body, missing or wrongly-typed
result) makes the probe return failure.  The embedding of
`checkRpcUrl` is a total Bool-valued function, so no outcome raises an
error that could halt the run. -/
theorem c5_probe_success_characterization (o : ProbeOutcome) :
    checkRpcUrl o = true ↔
      ∃ s, o = ProbeOutcome.response true (some ⟨some (JsonResult.str s)⟩) ∧
        jsStartsWith s "0x" = true := by
  constructor
  · intro h
    match o with
    | ProbeOutcome.exn => exact absurd h (by decide)
    | ProbeOutcome.response false b => exact absurd h (by simp [checkRpcUrl])
    | ProbeOutcome.response true Option.none => exact absurd h (by decide)
    | ProbeOutcome.response true (some ⟨Option.none⟩) =>
      exact absurd h (by simp [checkRpcUrl])
    | ProbeOutcome.response true (some ⟨some (JsonResult.nonString b)⟩) =>
      exact absurd h (by simp [checkRpcUrl])
    | ProbeOutcome.response true (some ⟨some (JsonResult.str s)⟩) =>
      refine ⟨s, rfl, ?_⟩
      by_cases hs : s = ""
      · simp [checkRpcUrl, hs] at h
      · simpa [checkRpcUrl, hs] using h
  · rintro ⟨s, rfl, hs⟩
    have hne : s ≠ "" := by
      intro he
      subst he
      exact absurd hs (by decide)
    simp [checkRpcUrl, hne, hs]

theorem jsFilterRpcs_drop {cid : String} {rpc : JsVal}
    (hr : droppedCandidate cid rpc = true) (rs1 rs2 : List JsVal) :
    jsFilterRpcs cid (rs1 ++ rpc :: rs2) = jsFilterRpcs cid (rs1 ++ rs2) := by
  induction rs1 with
  | nil =>
    have htr : jsTruthy (jsUrlVar cid rpc) = false := by
      simpa [droppedCandidate] using hr
    have hguard : jsPushGuard (jsUrlVar cid rpc) = Except.ok (none : Option String) := by
      simp [jsPushGuard, htr]
    simp only [List.nil_append, jsFilterRpcs, hguard]
    cases jsFilterRpcs cid rs2 <;> rfl
  | cons hd tl ih =>
    simp only [List.cons_append, jsFilterRpcs, List.append_eq]
    rw [ih]

theorem jsProcessDoc_skip {cid : String} {v : JsVal}
    (hv : skippedNetworkValue v = true) (d1 d2 : List (String × JsVal)) :
    jsProcessDoc (d1 ++ (cid, v) :: d2) = jsProcessDoc (d1 ++ d2) := by
  induction d1 with
  | nil =>
    simp only [List.nil_append]
    cases v with
    | vUndef => simp [skippedNetworkValue] at hv
    | vNull => simp [skippedNetworkValue] at hv
    | vBool b => simp [jsProcessDoc, jsGetProp]
    | vNum n => simp [jsProcessDoc, jsGetProp]
    | vStr s => simp [jsProcessDoc, jsGetProp]
    | vArr elems => simp [jsProcessDoc, jsGetProp]
    | vObj fields =>
      rcases hf : findField fields "rpcs" with _ | _ | b | n | s | elems | fs
      case vArr => simp [skippedNetworkValue, hf] at hv
      all_goals simp [jsProcessDoc, jsGetProp, hf]
  | cons hd tl ih =>
    rcases hd with ⟨c1, v1⟩
    simp only [List.cons_append, jsProcessDoc, List.append_eq]
    rw [ih]

/-- C6 counterexample: the claim states that a malformed individual
entry is recovered locally and never aborts the run.  On the real
(untyped) values the evaluated document can contain, the code instead
throws and exits 1 with no output: a null network value throws a
TypeError at `config.rpcs` (so even the well-formed sibling network
`"137"` is lost), and a candidate object whose `url` value is the
truthy non-string `123` throws at `url.startsWith("https")`. -/
theorem c6_malformed_entry_aborts_run :
    jsRunProcess [("10", JsVal.vNull),
        ("137", JsVal.vObj [("rpcs", JsVal.vArr [JsVal.vStr "https://x.example"])])]
      (fun _ => true) Option.none
      = RunOutput.mk 1 Option.none Option.none ∧
    jsRunProcess [("137", JsVal.vObj [("rpcs",
        JsVal.vArr [JsVal.vObj [("url", JsVal.vNum 123)]])])]
      (fun _ => true) Option.none
      = RunOutput.mk 1 Option.none Option.none :=
  ⟨rfl, rfl⟩

/-- C6 amended: malformed entries are recovered locally exactly in the
shapes the code's guards cover - a non-nullish network value without a
usable (array) `rpcs` field is skipped with no entry emitted, and a
candidate whose computed `url` is falsy (a non-string non-object
candidate, an object without a `url` key, or one whose `url` value is
falsy) is silently dropped - with processing of all surrounding
networks and candidates unchanged; whereas a nullish network value or
a truthy non-string `url` value throws and aborts the run. -/
theorem c6_guarded_malformed_entries_recovered (cid : String) (v : JsVal)
    (d1 d2 : List (String × JsVal)) (rpc : JsVal) (rs1 rs2 : List JsVal)
    (hv : skippedNetworkValue v = true)
    (hr : droppedCandidate cid rpc = true) :
    jsProcessDoc (d1 ++ (cid, v) :: d2) = jsProcessDoc (d1 ++ d2) ∧
    jsFilterRpcs cid (rs1 ++ rpc :: rs2) = jsFilterRpcs cid (rs1 ++ rs2) :=
  ⟨jsProcessDoc_skip hv d1 d2, jsFilterRpcs_drop hr rs1 rs2⟩

/-- Witness for the amended C6: a numeric network value is skipped
while its well-formed neighbour is still processed, and a candidate
object without a `url` key is dropped while the surrounding string
candidates are still processed. -/
theorem c6_witness :
    (skippedNetworkValue (JsVal.vNum 42) = true) ∧
    (droppedCandidate "137" (JsVal.vObj [("tracking", JsVal.vStr "none")]) = true) ∧
    (jsProcessDoc ([("56", JsVal.vObj [("rpcs", JsVal.vArr [JsVal.vStr "https://ok.example"])])]
        ++ ("137", JsVal.vNum 42) :: [])
      = jsProcessDoc ([("56", JsVal.vObj [("rpcs",
          JsVal.vArr [JsVal.vStr "https://ok.example"])])] ++ []) ∧
     jsFilterRpcs "137" ([JsVal.vStr "https://x.example"]
        ++ JsVal.vObj [("tracking", JsVal.vStr "none")] :: [JsVal.vStr "https://y.example"])
      = jsFilterRpcs "137" ([JsVal.vStr "https://x.example"]
          ++ [JsVal.vStr "https://y.example"])) :=
  ⟨rfl, rfl,
    c6_guarded_malformed_entries_recovered "137" (JsVal.vNum 42)
      [("56", JsVal.vObj [("rpcs", JsVal.vArr [JsVal.vStr "https://ok.example"])])] []
      (JsVal.vObj [("tracking", JsVal.vStr "none")])
      [JsVal.vStr "https://x.example"] [JsVal.vStr "https://y.example"]
      rfl rfl⟩

/-- C7: the prober's output is an order-preserving subsequence of its
input - the verified endpoints appear in the same relative order as in
the eligible sequence, for every oracle of probe verdicts and every
batch width, because each batch's results are joined in batch order by
`Promise.all` rather than appended as probes complete. -/
theorem c7_prober_output_sublist_of_input (isValid : String → Bool)
    (urls : List String) (c : Nat) :
    List.Sublist (checkRpcUrls isValid urls c) urls := by
  rw [checkRpcUrls_eq_filter]
  exact List.filter_sublist urls

/-- C8: the version counter step reads the previous value (defaulting
to 0 when the file is absent or unparsable) and writes back exactly
the previous value plus 1 as a plain integer: an absent file leads to
"1" being written, a file holding 1 leads to "2", and in general a
file holding n leads to the decimal text of n + 1. -/
theorem c8_version_read_increment_write :
    versionFileWritten Option.none = "1" ∧
    versionFileWritten (some (some 1)) = "2" ∧
    versionFileWritten (some Option.none) = "1" ∧
    (∀ vf : VersionFile, newVersion vf = readVersion vf + 1) ∧
    (∀ n : Int, versionFileWritten (some (some n)) = toString (n + 1)) := by
  refine ⟨by decide, by decide, by decide, fun vf => rfl, fun n => ?_⟩
  by_cases h : n = 0
  · subst h; decide
  · simp [versionFileWritten, newVersion, readVersion, h]

/-- C9: when the upstream document fetch fails - by transport error or
by a non-success HTTP status - the run exits with status 1 and neither
the output catalog file nor the version counter file is written, for
every document body, probe oracle and prior counter state. -/
theorem c9_fetch_failure_aborts_before_output (d : List Stmt)
    (v : String → Bool) (vf : VersionFile) :
    runMain FetchResult.transportError v vf
      = RunOutput.mk 1 Option.none Option.none ∧
    runMain (FetchResult.response false d) v vf
      = RunOutput.mk 1 Option.none Option.none :=
  ⟨rfl, rfl⟩

/-- C10: the two script variants compute the same pre-probe filtered
mapping - the processing stage of `part_000` agrees with that of
`update.ts` on every extracted document - and they differ only in that
`update.ts` runs the liveness prober over that mapping before writing
it while `part_000` writes the mapping directly. -/
theorem c10_variants_agree_pre_probe :
    (∀ extra : ExtraRpcs, PartZero.processDoc extra = processDoc extra) ∧
    (∀ (docText : List Stmt) (vf : VersionFile),
      (PartZero.runMain (FetchResult.response true docText) vf).catalogWritten
        = Option.map PartZero.processDoc (extractCatalog docText)) ∧
    (∀ (docText : List Stmt) (v : String → Bool) (vf : VersionFile),
      (runMain (FetchResult.response true docText) v vf).catalogWritten
        = Option.map (fun extra => validateAll v (processDoc extra))
            (extractCatalog docText)) := by
  refine ⟨fun extra => rfl, fun docText vf => ?_, fun docText v vf => ?_⟩
  · rcases hc : extractCatalog docText with _ | extra <;>
      simp [PartZero.runMain, hc]
  · rcases hc : extractCatalog docText with _ | extra <;>
      simp [runMain, hc]
